import Mathlib

/-!
Verification development for the seo-checker crawler.

This file gives a shallow embedding of the crawl orchestration engine and
its pure collaborators, translated from the repository sources:

* `crawl.ts`            — cache resume, sitemap seeding, the batch loop;
* `metadata.ts`         — `extractMetadata` (fetch + extraction, error path);
* `sitemap.ts`          — `parseSitemap` (recursive sitemap-index flattening);
* `utils/csv.ts`        — `jsonToCsv`;
* the monolithic `index.ts` variant — the pre-crawl 24-hour cache check.

External effects (network fetch, DOM parsing + link normalisation, the
suggestion service) are modelled as oracles supplied in a `CrawlEnv`: the
fetch of a URL resolves to either a failure message or the extracted page
content, exactly the two ways `extractMetadata`'s `try` block can go.
-/

namespace SeoCheck

/-- Sitemap hint data carried on a queue item (`sitemapData` in crawl.ts). -/
structure SitemapData where
  lastmod : Option String
  priority : Option String
  changefreq : Option String
deriving DecidableEq

/-- One entry returned by the sitemap resolver (`SitemapUrl` in types.ts). -/
structure SitemapUrl where
  url : String
  lastmod : Option String
  priority : Option String
  changefreq : Option String
deriving DecidableEq

/-- A frontier task (`QueueItem` in types.ts / the queue entries of crawl.ts). -/
structure QueueItem where
  url : String
  depth : Nat
  sitemapData : Option SitemapData
deriving DecidableEq

/-- A page result (`PageMetadata` in types.ts, as returned by
`extractMetadata` in metadata.ts).  Fields that the TypeScript object may
leave `undefined` (suggestions, `html`, `error`) or `null`
(`lastmod`/`priority`/`changefreq`) are `Option`s. -/
structure PageMetadata where
  url : String
  title : String
  titleLength : Nat
  titleScore : String
  description : String
  descriptionLength : Nat
  descriptionScore : String
  keywords : String
  keywordsCount : Nat
  keywordsScore : String
  h1Count : Nat
  h1Score : String
  h1Text : String
  canonicalUrl : String
  ogTitle : String
  ogDescription : String
  ogImage : String
  twitterCard : String
  twitterTitle : String
  twitterDescription : String
  twitterImage : String
  robots : String
  depth : Nat
  links : List String
  inSitemap : Bool
  lastmod : Option String
  priority : Option String
  changefreq : Option String
  suggestedTitle : Option String
  suggestedDescription : Option String
  suggestedKeywords : Option String
  html : Option String
  error : Option String
deriving DecidableEq

/-- Crawl configuration (`CrawlOptions` in types.ts). -/
structure CrawlOptions where
  url : String
  sitemap : Option String
  depth : Nat
  output : String
  format : String
  limit : Nat
  timeout : Nat
  concurrency : Nat
  userAgent : String
  sitemapOnly : Bool
  followLinks : Bool
  force : Bool
deriving DecidableEq

/-- What `suggestTitleDescriptionKeywords` (openai.ts) resolves to.  The
function catches every failure internally and returns an object whose three
fields may each be absent, so its outcome is total. -/
structure SuggestOutcome where
  suggestedTitle : Option String
  suggestedDescription : Option String
  suggestedKeywords : Option String
deriving DecidableEq

/-- The data the DOM collaborators extract from a successfully fetched and
parsed page in `extractMetadata` (metadata.ts lines 24-55): the selected
text fields, the list of `h1` texts, and the normalised same-domain
outbound links (`normalizeUrl`/`isSameDomain` applied to each `a[href]`). -/
structure PageContent where
  title : String
  description : String
  keywords : String
  h1Texts : List String
  canonicalUrl : String
  ogTitle : String
  ogDescription : String
  ogImage : String
  twitterCard : String
  twitterTitle : String
  twitterDescription : String
  twitterImage : String
  robots : String
  links : List String
  html : String
deriving DecidableEq

/-- Outcome of fetching and parsing one URL: either the `try` block of
`extractMetadata` reaches its `return` with extracted content, or some step
(network error, timeout abort, non-ok HTTP status, HTML parse failure)
throws and the `catch` receives a message. -/
inductive FetchOutcome where
  | failure (message : String)
  | success (content : PageContent)
deriving DecidableEq

/-- Oracles for the external collaborators: the fetch/parse outcome per URL
and the suggestion-service outcome per URL. -/
structure CrawlEnv where
  fetch : String → FetchOutcome
  suggest : String → SuggestOutcome

/-- `extractMetadata` (metadata.ts lines 6-142).  Total: the whole body is
one `try` whose `catch` returns an error `PageMetadata`, so every input
resolves to a result and nothing is thrown to the caller. -/
def extractMetadata (env : CrawlEnv) (url : String) (depth : Nat)
    (sitemapData : Option SitemapData) (sitemapUrls : List SitemapUrl) :
    PageMetadata :=
  match env.fetch url with
  | .failure message =>
      { url := url
        title := ""
        titleLength := 0
        titleScore := "needs improvement"
        description := ""
        descriptionLength := 0
        descriptionScore := "needs improvement"
        keywords := ""
        keywordsCount := 0
        keywordsScore := "needs improvement"
        h1Count := 0
        h1Score := "needs improvement"
        h1Text := ""
        canonicalUrl := ""
        ogTitle := ""
        ogDescription := ""
        ogImage := ""
        twitterCard := ""
        twitterTitle := ""
        twitterDescription := ""
        twitterImage := ""
        robots := ""
        depth := depth
        links := []
        inSitemap := false
        lastmod := none
        priority := none
        changefreq := none
        suggestedTitle := none
        suggestedDescription := none
        suggestedKeywords := none
        html := none
        error := some message }
  | .success c =>
      let titleLength := c.title.length
      let descriptionLength := c.description.length
      let keywordsCount := if c.keywords = ("") then 0 else (c.keywords.splitOn (",")).length
      let titleScore := if 10 < titleLength ∧ titleLength < 70 then ("good") else ("needs improvement")
      let descriptionScore := if 50 < descriptionLength ∧ descriptionLength < 160 then ("good") else ("needs improvement")
      let keywordsScore := if 0 < keywordsCount ∧ keywordsCount < 10 then ("good") else ("needs improvement")
      let h1Count := c.h1Texts.length
      let h1Score := if h1Count = 1 then ("good") else ("needs improvement")
      let sugg :=
        if titleScore = ("needs improvement") ∨ descriptionScore = ("needs improvement")
            ∨ keywordsScore = ("needs improvement")
        then env.suggest url
        else { suggestedTitle := none, suggestedDescription := none, suggestedKeywords := none }
      { url := url
        title := c.title
        titleLength := titleLength
        titleScore := titleScore
        description := c.description
        descriptionLength := descriptionLength
        descriptionScore := descriptionScore
        keywords := c.keywords
        keywordsCount := keywordsCount
        keywordsScore := keywordsScore
        h1Count := h1Count
        h1Score := h1Score
        h1Text := (c.h1Texts.head?).getD ("")
        canonicalUrl := c.canonicalUrl
        ogTitle := c.ogTitle
        ogDescription := c.ogDescription
        ogImage := c.ogImage
        twitterCard := c.twitterCard
        twitterTitle := c.twitterTitle
        twitterDescription := c.twitterDescription
        twitterImage := c.twitterImage
        robots := c.robots
        depth := depth
        links := c.links
        inSitemap := sitemapUrls.any (fun item => item.url == url)
        lastmod := sitemapData.bind (fun sd => sd.lastmod)
        priority := sitemapData.bind (fun sd => sd.priority)
        changefreq := sitemapData.bind (fun sd => sd.changefreq)
        suggestedTitle := sugg.suggestedTitle
        suggestedDescription := sugg.suggestedDescription
        suggestedKeywords := sugg.suggestedKeywords
        html := some c.html
        error := none }

/-- The controller's mutable state in `crawl` (crawl.ts lines 16-20), plus
`fetched`: the list of URLs for which `extractMetadata` has been invoked
(a ghost field used to state budget and resumption properties). -/
structure CrawlState where
  visited : List String
  queue : List QueueItem
  results : List PageMetadata
  processed : Nat
  fetched : List String
deriving DecidableEq

/-- JavaScript `Set.add`: append only if not present (insertion order kept). -/
def setAdd (s : List String) (x : String) : List String :=
  if s.contains x then s else s ++ [x]

/-- One task of a batch (crawl.ts lines 73-93): skip if already visited,
otherwise mark visited, count it, and invoke `extractMetadata`. -/
def processItem (env : CrawlEnv) (sitemapUrls : List SitemapUrl)
    (st : CrawlState) (item : QueueItem) : CrawlState × Option PageMetadata :=
  if st.visited.contains item.url then (st, none)
  else
    ({ st with
        visited := st.visited ++ [item.url]
        processed := st.processed + 1
        fetched := st.fetched ++ [item.url] },
     some (extractMetadata env item.url item.depth item.sitemapData sitemapUrls))

/-- `batch.map(...)` + `Promise.all` (crawl.ts lines 73-94): the visited
checks and insertions run synchronously in batch order before any result is
integrated, and the collected outcomes are in batch order, `null` for
skipped duplicates. -/
def runBatch (env : CrawlEnv) (sitemapUrls : List SitemapUrl) :
    List QueueItem → CrawlState → CrawlState × List (Option PageMetadata)
  | [], st => (st, [])
  | item :: rest, st =>
      let p := processItem env sitemapUrls st item
      let r := runBatch env sitemapUrls rest p.1
      (r.1, p.2 :: r.2)

/-- Integrating a batch's outcomes (crawl.ts lines 95-105): every non-null
result is appended to `results`, in batch order. -/
def pushResults (st : CrawlState) (rs : List (Option PageMetadata)) : CrawlState :=
  { st with results := st.results ++ rs.filterMap id }

/-- The tasks enqueued for one result's links (crawl.ts lines 163-168):
its links not yet visited, at `depth + 1`. -/
def linkItems (visited : List String) (result : PageMetadata) : List QueueItem :=
  (result.links.filter (fun l => ¬ visited.contains l)).map
    (fun l => { url := l, depth := result.depth + 1, sitemapData := none })

/-- Post-batch link discovery (crawl.ts lines 159-170): when following
links and a result's depth is below `maxDepth`, enqueue its links that are
not yet visited, at `depth + 1`. -/
def enqueueLinks (opts : CrawlOptions) (st : CrawlState)
    (rs : List (Option PageMetadata)) : CrawlState :=
  rs.foldl
    (fun acc r =>
      match r with
      | none => acc
      | some result =>
          if opts.followLinks = true ∧ result.depth < opts.depth then
            { acc with queue := acc.queue ++ linkItems acc.visited result }
          else acc)
    st

/-- One iteration of the main loop body (crawl.ts lines 70-171):
`queue.splice(0, concurrency)` takes the batch, the batch runs, results are
integrated, then newly discovered links are enqueued. -/
def crawlStep (env : CrawlEnv) (sitemapUrls : List SitemapUrl)
    (opts : CrawlOptions) (st : CrawlState) : CrawlState :=
  let batch := st.queue.take opts.concurrency
  let st0 := { st with queue := st.queue.drop opts.concurrency }
  let b := runBatch env sitemapUrls batch st0
  enqueueLinks opts (pushResults b.1 b.2) b.2

/-- The `while (queue.length > 0 && processed < options.limit)` loop of
crawl.ts line 70, fuel-indexed (the source loop need not terminate, e.g.
with `concurrency = 0`); every claim proved about it holds at each batch
boundary, and in particular at whatever state the loop stops in. -/
def crawlLoop (env : CrawlEnv) (sitemapUrls : List SitemapUrl)
    (opts : CrawlOptions) : Nat → CrawlState → CrawlState
  | 0, st => st
  | fuel + 1, st =>
      if st.queue ≠ [] ∧ st.processed < opts.limit then
        crawlLoop env sitemapUrls opts fuel (crawlStep env sitemapUrls opts st)
      else st

/-- Cache resume (crawl.ts lines 26-39): when a cache file with a `pages`
array loads, its pages become the result collection, each page URL is added
to the visited set, and `processed` starts at the page count.  `none`
models a missing or unreadable cache. -/
def seedFromCache (cache : Option (List PageMetadata)) : CrawlState :=
  match cache with
  | some pages =>
      { visited := pages.foldl (fun s p => setAdd s p.url) []
        queue := []
        results := pages
        processed := pages.length
        fetched := [] }
  | none => { visited := [], queue := [], results := [], processed := 0, fetched := [] }

/-- The queue task built for one sitemap URL (crawl.ts lines 50-58):
depth 0, carrying the sitemap hints. -/
def sitemapQueueItem (item : SitemapUrl) : QueueItem :=
  { url := item.url, depth := 0,
    sitemapData := some { lastmod := item.lastmod, priority := item.priority,
                          changefreq := item.changefreq } }

/-- Sitemap seeding (crawl.ts lines 48-61): each sitemap URL is enqueued at
depth 0 with its hints if it is not visited and `processed < options.limit`.
Note `processed` and `visited` are not updated by this loop, so the guard
does not account for the tasks being queued. -/
def seedSitemap (opts : CrawlOptions) (sitemapUrls : List SitemapUrl)
    (st : CrawlState) : CrawlState :=
  sitemapUrls.foldl
    (fun acc item =>
      if ¬ acc.visited.contains item.url ∧ acc.processed < opts.limit then
        { acc with queue := acc.queue ++ [sitemapQueueItem item] }
      else acc)
    st

/-- Base-URL seeding (crawl.ts lines 63-68): unless `sitemapOnly`, enqueue
the base URL at depth 0 if unvisited. -/
def seedBase (opts : CrawlOptions) (baseUrl : String) (st : CrawlState) : CrawlState :=
  if opts.sitemapOnly = false ∧ ¬ st.visited.contains baseUrl then
    { st with queue := st.queue ++ [{ url := baseUrl, depth := 0, sitemapData := none }] }
  else st

/-- The state at the top of the main loop of `crawl` (crawl.ts lines 16-68):
cache resume, then sitemap seeding, then base-URL seeding. -/
def initialState (opts : CrawlOptions) (cache : Option (List PageMetadata))
    (sitemapUrls : List SitemapUrl) (baseUrl : String) : CrawlState :=
  seedBase opts baseUrl (seedSitemap opts sitemapUrls (seedFromCache cache))

/-- A whole run of `crawl` (crawl.ts): seed, then drive the batch loop. -/
def crawlRun (env : CrawlEnv) (opts : CrawlOptions)
    (cache : Option (List PageMetadata)) (sitemapUrls : List SitemapUrl)
    (baseUrl : String) (fuel : Nat) : CrawlState :=
  crawlLoop env sitemapUrls opts fuel (initialState opts cache sitemapUrls baseUrl)

/-- One `<url>` entry of a `<urlset>` document, with its `<loc>` and
optional hints (sitemap.ts lines 58-68). -/
structure SitemapEntry where
  loc : String
  lastmod : Option String
  priority : Option String
  changefreq : Option String
deriving DecidableEq

/-- The document a sitemap URL resolves to, as `parseSitemap` (sitemap.ts
lines 27-76) discriminates it.  `notXml`: the body does not start with an
XML prolog (line 30).  `parseFail`: the fetch or the XML parse threw (the
`catch` at line 73).  `otherXml`: XML with neither a `sitemapindex` holding
`sitemap` entries nor a `urlset` holding `url` entries.  `urlset`: entries
whose `loc` may be missing (`none`, skipped at line 61).  `index`: the
documents the child sitemap `loc`s resolve to, in document order (a child
entry without a `loc` is skipped at line 45, i.e. contributes nothing, the
same as a child that resolves to `parseFail`). -/
inductive SitemapDoc where
  | notXml
  | parseFail
  | otherXml
  | urlset (entries : List (Option SitemapEntry))
  | index (children : List SitemapDoc)

/-- The `SitemapUrl` pushed for a `<url>` entry (sitemap.ts lines 62-67). -/
def entryToSitemapUrl (e : SitemapEntry) : SitemapUrl :=
  { url := e.loc, lastmod := e.lastmod, priority := e.priority, changefreq := e.changefreq }

/-- `parseSitemap` (sitemap.ts lines 27-76): a `urlset` yields its located
entries; a sitemap index recursively resolves each child sitemap and
concatenates the results (`urls = urls.concat(childUrls)`, line 47); every
other outcome yields the empty list. -/
def parseSitemap : SitemapDoc → List SitemapUrl
  | .notXml => []
  | .parseFail => []
  | .otherXml => []
  | .urlset entries => (entries.filterMap id).map entryToSitemapUrl
  | .index children => parseChildren children
where
  /-- The `for (const sitemap of sitemaps)` loop of sitemap.ts lines 42-50. -/
  parseChildren : List SitemapDoc → List SitemapUrl
    | [] => []
    | c :: rest => parseSitemap c ++ parseChildren rest

/-- The cache file as the monolithic index.ts variant's pre-crawl check
reads it: `crawlDate` is an epoch-milliseconds instant, `none` when the
field is missing or does not parse to a valid date (in which case the
freshness comparison is false), and `pages` is the cached result list. -/
structure CacheFile where
  crawlDate : Option Int
  pages : List PageMetadata
deriving DecidableEq

/-- Outcome of the pre-crawl cache check. -/
inductive CacheCheckResult where
  | shortCircuit (results : List PageMetadata)
  | proceed
deriving DecidableEq

/-- The `--- CACHE CHECK BEFORE CRAWL ---` block of the monolithic index.ts
variant (report.ts lines 352-375): unless `force` is set, if the cache file
loads and its `crawlDate` is less than 24 hours (86400000 ms) before `now`,
the run short-circuits with the cached pages; in every other case
(force set, no readable cache, missing/invalid date, stale) it proceeds. -/
def cacheCheck (force : Bool) (cache : Option CacheFile) (now : Int) : CacheCheckResult :=
  if force then .proceed
  else
    match cache with
    | none => .proceed
    | some c =>
        match c.crawlDate with
        | none => .proceed
        | some d => if now - d < 86400000 then .shortCircuit c.pages else .proceed

/-- Seeding in the monolithic variant: the base URL is queued before the
sitemap step (report.ts lines 377-380), there is no cache resume on the
proceed path, and sitemap URLs are enqueued under the same guard as in
crawl.ts (report.ts lines 912-924). -/
def monolithicSeed (opts : CrawlOptions) (sitemapUrls : List SitemapUrl)
    (baseUrl : String) : CrawlState :=
  seedSitemap opts sitemapUrls
    { visited := []
      queue := if opts.sitemapOnly = false then [{ url := baseUrl, depth := 0, sitemapData := none }] else []
      results := []
      processed := 0
      fetched := [] }

/-- What a whole invocation of the monolithic variant produces:
the result collection handed to `generateReport`, the URLs fetched, and
whether the (network) sitemap resolution step ran. -/
structure RunOutcome where
  results : List PageMetadata
  fetched : List String
  sitemapResolved : Bool
deriving DecidableEq

/-- The monolithic variant end to end (report.ts lines 352-375 and
904-964): run the cache check; on a short-circuit the cached pages go
straight to report generation with no sitemap resolution and no fetches;
otherwise resolve the sitemap, seed, and drive the batch loop, then
generate the report from the loop's results. -/
def crawlMain (env : CrawlEnv) (sitemapUrls : List SitemapUrl)
    (opts : CrawlOptions) (force : Bool) (cache : Option CacheFile) (now : Int)
    (baseUrl : String) (fuel : Nat) : RunOutcome :=
  match cacheCheck force cache now with
  | .shortCircuit pages => { results := pages, fetched := [], sitemapResolved := false }
  | .proceed =>
      let final := crawlLoop env sitemapUrls opts fuel (monolithicSeed opts sitemapUrls baseUrl)
      { results := final.results, fetched := final.fetched, sitemapResolved := true }

/-- A cell value of a flattened CSV row: the flattening in crawl.ts lines
115-146 produces only strings and numbers. -/
inductive CsvValue where
  | str (v : String)
  | num (v : Nat)
deriving DecidableEq

/-- The `value.replace(/"/g, '""')` step of `jsonToCsv`. -/
def csvEscapeQuotes (v : String) : String :=
  String.join (v.toList.map (fun c => if c = ('"') then "\"\"" else String.singleton c))

/-- One cell of `jsonToCsv` (utils/csv.ts lines 10-24): numbers are printed
as is; a string holding a quote or a comma is wrapped in quotes with inner
quotes doubled. -/
def csvCell : CsvValue → String
  | .num k => toString k
  | .str v =>
      if v.contains ('"') ∨ v.contains (',') then "\"" ++ csvEscapeQuotes v ++ "\""
      else v

/-- `jsonToCsv` (utils/csv.ts lines 3-30): empty data renders as the empty
string; otherwise the headers are the first row's keys, each row is looked
up per header (a missing key renders as the empty cell), cells are joined
by commas and lines by newlines. -/
def jsonToCsv (data : List (List (String × CsvValue))) : String :=
  match data with
  | [] => ""
  | row0 :: _ =>
      let headers := row0.map Prod.fst
      String.intercalate ("\n")
        (String.intercalate (",") headers ::
          data.map (fun row =>
            String.intercalate (",")
              (headers.map (fun h =>
                match List.lookup h row with
                | some v => csvCell v
                | none => ""))))

/-- The per-page flattening of the CSV branch (crawl.ts lines 115-146), in
object-key order; `x || ""` on an optional string is its value or empty,
and `inSitemap` renders as `yes`/`no`. -/
def flattenPage (page : PageMetadata) : List (String × CsvValue) :=
  [("url", .str page.url),
   ("title", .str page.title),
   ("suggestedTitle", .str (page.suggestedTitle.getD (""))),
   ("titleLength", .num page.titleLength),
   ("titleScore", .str page.titleScore),
   ("description", .str page.description),
   ("suggestedDescription", .str (page.suggestedDescription.getD (""))),
   ("descriptionLength", .num page.descriptionLength),
   ("descriptionScore", .str page.descriptionScore),
   ("keywords", .str page.keywords),
   ("suggestedKeywords", .str (page.suggestedKeywords.getD (""))),
   ("keywordsCount", .num page.keywordsCount),
   ("h1Count", .num page.h1Count),
   ("h1Score", .str page.h1Score),
   ("h1Text", .str page.h1Text),
   ("canonicalUrl", .str page.canonicalUrl),
   ("ogTitle", .str page.ogTitle),
   ("ogDescription", .str page.ogDescription),
   ("ogImage", .str page.ogImage),
   ("twitterCard", .str page.twitterCard),
   ("twitterTitle", .str page.twitterTitle),
   ("twitterDescription", .str page.twitterDescription),
   ("twitterImage", .str page.twitterImage),
   ("robots", .str page.robots),
   ("depth", .num page.depth),
   ("inSitemap", .str (if page.inSitemap then ("yes") else ("no"))),
   ("lastmod", .str (page.lastmod.getD (""))),
   ("priority", .str (page.priority.getD (""))),
   ("changefreq", .str (page.changefreq.getD (""))),
   ("error", .str (page.error.getD ("")))]

/-- The tabular (CSV) rendering of the result collection at clock instant
`nowIso` (crawl.ts lines 114-148): the CSV branch never reads the clock. -/
def renderCsvOutput (pages : List PageMetadata) (nowIso : String) : String :=
  jsonToCsv (pages.map flattenPage)

/-- A JSON value, as `JSON.stringify` sees the report object. -/
inductive JsonValue where
  | str (s : String)
  | num (n : Nat)
  | jbool (b : Bool)
  | jnull
  | arr (xs : List JsonValue)
  | obj (fields : List (String × JsonValue))

/-- String escaping of `JSON.stringify` for the characters that occur in
this data model: quote, backslash, newline, carriage return, tab. -/
def jsonEscapeChar (c : Char) : String :=
  if c = ('"') then "\\\""
  else if c = ('\\') then "\\\\"
  else if c = ('\n') then "\\n"
  else if c = ('\r') then "\\r"
  else if c = ('\t') then "\\t"
  else String.singleton c

/-- A JSON string literal. -/
def jsonQuote (s : String) : String :=
  "\"" ++ String.join (s.toList.map jsonEscapeChar) ++ "\""

/-- `d` levels of the two-space indent of `JSON.stringify(v, null, 2)`. -/
def indentSpaces (d : Nat) : String :=
  String.join (List.replicate d ("  "))

mutual

/-- `JSON.stringify(v, null, 2)` at nesting depth `d`. -/
def stringifyJson (v : JsonValue) (d : Nat) : String :=
  match v with
  | .str s => jsonQuote s
  | .num n => toString n
  | .jbool b => cond b ("true") ("false")
  | .jnull => "null"
  | .arr [] => "[]"
  | .arr (x :: xs) =>
      "[\n" ++ stringifyItems (x :: xs) (d + 1) ++ "\n" ++ indentSpaces d ++ "]"
  | .obj [] => "\x7b\x7d"
  | .obj (f :: fs) =>
      "\x7b\n" ++ stringifyFields (f :: fs) (d + 1) ++ "\n" ++ indentSpaces d ++ "\x7d"

/-- Array items, one per line, comma-separated. -/
def stringifyItems (xs : List JsonValue) (d : Nat) : String :=
  match xs with
  | [] => ""
  | [x] => indentSpaces d ++ stringifyJson x d
  | x :: y :: rest =>
      indentSpaces d ++ stringifyJson x d ++ ",\n" ++ stringifyItems (y :: rest) d

/-- Object fields, one per line, comma-separated. -/
def stringifyFields (fs : List (String × JsonValue)) (d : Nat) : String :=
  match fs with
  | [] => ""
  | [f] => indentSpaces d ++ jsonQuote f.1 ++ ": " ++ stringifyJson f.2 d
  | f :: g :: rest =>
      indentSpaces d ++ jsonQuote f.1 ++ ": " ++ stringifyJson f.2 d ++ ",\n" ++
        stringifyFields (g :: rest) d

end

/-- An optional JSON field: present when the TypeScript value is a string,
omitted by `JSON.stringify` when it is `undefined`. -/
def optField (key : String) (v : Option String) : List (String × JsonValue) :=
  match v with
  | some s => [(key, .str s)]
  | none => []

/-- A nullable JSON field (`x || null` in the source is never omitted). -/
def nullableField (v : Option String) : JsonValue :=
  match v with
  | some s => .str s
  | none => .jnull

/-- A `PageMetadata` as the JSON serialisation sees it.  A result carrying
`error` was built by the catch branch of `extractMetadata` (metadata.ts
lines 113-140), whose object literal ends at `error` and has no
sitemap-hint, suggestion or `html` keys; a result without `error` was built
by the success return (lines 77-110), where the hint fields are present
(possibly `null`) and the suggestion and `html` keys are present exactly
when defined. -/
def pageToJson (p : PageMetadata) : JsonValue :=
  match p.error with
  | some message =>
      .obj ([("url", .str p.url),
        ("title", .str p.title),
        ("titleLength", .num p.titleLength),
        ("titleScore", .str p.titleScore),
        ("description", .str p.description),
        ("descriptionLength", .num p.descriptionLength),
        ("descriptionScore", .str p.descriptionScore),
        ("keywords", .str p.keywords),
        ("keywordsCount", .num p.keywordsCount),
        ("keywordsScore", .str p.keywordsScore),
        ("h1Count", .num p.h1Count),
        ("h1Score", .str p.h1Score),
        ("h1Text", .str p.h1Text),
        ("canonicalUrl", .str p.canonicalUrl),
        ("ogTitle", .str p.ogTitle),
        ("ogDescription", .str p.ogDescription),
        ("ogImage", .str p.ogImage),
        ("twitterCard", .str p.twitterCard),
        ("twitterTitle", .str p.twitterTitle),
        ("twitterDescription", .str p.twitterDescription),
        ("twitterImage", .str p.twitterImage),
        ("robots", .str p.robots),
        ("depth", .num p.depth),
        ("links", .arr (p.links.map JsonValue.str)),
        ("inSitemap", .jbool p.inSitemap),
        ("error", .str message)])
  | none =>
      .obj ([("url", .str p.url),
        ("title", .str p.title),
        ("titleLength", .num p.titleLength),
        ("titleScore", .str p.titleScore),
        ("description", .str p.description),
        ("descriptionLength", .num p.descriptionLength),
        ("descriptionScore", .str p.descriptionScore),
        ("keywords", .str p.keywords),
        ("keywordsCount", .num p.keywordsCount),
        ("keywordsScore", .str p.keywordsScore),
        ("h1Count", .num p.h1Count),
        ("h1Score", .str p.h1Score),
        ("h1Text", .str p.h1Text),
        ("canonicalUrl", .str p.canonicalUrl),
        ("ogTitle", .str p.ogTitle),
        ("ogDescription", .str p.ogDescription),
        ("ogImage", .str p.ogImage),
        ("twitterCard", .str p.twitterCard),
        ("twitterTitle", .str p.twitterTitle),
        ("twitterDescription", .str p.twitterDescription),
        ("twitterImage", .str p.twitterImage),
        ("robots", .str p.robots),
        ("depth", .num p.depth),
        ("links", .arr (p.links.map JsonValue.str)),
        ("inSitemap", .jbool p.inSitemap),
        ("lastmod", nullableField p.lastmod),
        ("priority", nullableField p.priority),
        ("changefreq", nullableField p.changefreq)]
        ++ optField ("suggestedTitle") p.suggestedTitle
        ++ optField ("suggestedDescription") p.suggestedDescription
        ++ optField ("suggestedKeywords") p.suggestedKeywords
        ++ optField ("html") p.html)

/-- The options object as serialised into the report, in the key order of
its construction in the CLI entrypoint. -/
def optionsToJson (opts : CrawlOptions) : JsonValue :=
  .obj [("url", .str opts.url),
    ("sitemap", nullableField opts.sitemap),
    ("depth", .num opts.depth),
    ("output", .str opts.output),
    ("format", .str opts.format),
    ("limit", .num opts.limit),
    ("timeout", .num opts.timeout),
    ("concurrency", .num opts.concurrency),
    ("userAgent", .str opts.userAgent),
    ("sitemapOnly", .jbool opts.sitemapOnly),
    ("followLinks", .jbool opts.followLinks),
    ("force", .jbool opts.force)]

/-- The structured-data (JSON) rendering of the result collection at clock
instant `nowIso` (crawl.ts lines 107-113): the serialised report embeds
`crawlDate: new Date().toISOString()` taken at rendering time. -/
def renderJsonOutput (pages : List PageMetadata) (nowIso : String)
    (baseUrl : String) (opts : CrawlOptions) : String :=
  stringifyJson
    (.obj [("crawlDate", .str nowIso),
      ("baseUrl", .str baseUrl),
      ("options", optionsToJson opts),
      ("pages", .arr (pages.map pageToJson))])
    0

/-! ### Concrete fixtures used to instantiate the theorems -/

/-- An environment in which every fetch times out. -/
def envFailW : CrawlEnv :=
  { fetch := fun _ => .failure ("timeout")
    suggest := fun _ => { suggestedTitle := none, suggestedDescription := none,
                          suggestedKeywords := none } }

/-- A page with no metadata at all (every score needs improvement). -/
def contentW : PageContent :=
  { title := "", description := "", keywords := "", h1Texts := [], canonicalUrl := ""
    ogTitle := "", ogDescription := "", ogImage := "", twitterCard := ""
    twitterTitle := "", twitterDescription := "", twitterImage := "", robots := ""
    links := [], html := "" }

/-- An environment in which every fetch succeeds with `contentW` and the
suggestion service returns all three suggestions. -/
def envSuggW : CrawlEnv :=
  { fetch := fun _ => .success contentW
    suggest := fun _ => { suggestedTitle := some ("t"), suggestedDescription := some ("d"),
                          suggestedKeywords := some ("k") } }

/-- A sitemap with two URLs. -/
def suW : List SitemapUrl :=
  [{ url := "https://w.example/a", lastmod := none, priority := none, changefreq := none },
   { url := "https://w.example/b", lastmod := none, priority := none, changefreq := none }]

/-- Default-flavoured options (CLI defaults of the entrypoint). -/
def optsW : CrawlOptions :=
  { url := "https://w.example", sitemap := none, depth := 3, output := "seo-report"
    format := "csv", limit := 100, timeout := 10000, concurrency := 5
    userAgent := "ua", sitemapOnly := false, followLinks := true, force := false }

/-- Options with a page limit of 1 but concurrency 2 (sitemap only). -/
def optsLimitOneW : CrawlOptions :=
  { optsW with limit := 1, concurrency := 2, sitemapOnly := true, followLinks := false }

/-- Options with link following disabled. -/
def optsNoFollowW : CrawlOptions :=
  { optsW with followLinks := false }

/-- A fully-enriched cached result (all three suggestion fields present). -/
def cachedPageW : PageMetadata :=
  extractMetadata envSuggW ("https://w.example/cached") 0 none []

/-- The result of a failed fetch, used as a default element. -/
def dummyPageW : PageMetadata :=
  extractMetadata envFailW ("https://w.example/dummy") 0 none []

/-- A frontier task. -/
def itemC4W : QueueItem :=
  { url := "https://w.example/x", depth := 0, sitemapData := none }

/-- A second frontier task, dispatched in the same batch as `itemC4W`. -/
def itemC4W2 : QueueItem :=
  { url := "https://w.example/y", depth := 0, sitemapData := none }

/-- The state at the top of a loop iteration with a two-task queue, both
tasks fitting in one batch. -/
def stC4W : CrawlState :=
  { visited := [], queue := [itemC4W, itemC4W2], results := [], processed := 0, fetched := [] }

/-- A fresh cache file holding the enriched page. -/
def cacheFileW : CacheFile :=
  { crawlDate := some 0, pages := [cachedPageW] }

/-! ### Basic facts about `extractMetadata` -/

theorem extractMetadata_url (env : CrawlEnv) (url : String) (depth : Nat)
    (sd : Option SitemapData) (su : List SitemapUrl) :
    (extractMetadata env url depth sd su).url = url := by
  cases h : env.fetch url <;> simp [extractMetadata, h]

theorem extractMetadata_depth (env : CrawlEnv) (url : String) (depth : Nat)
    (sd : Option SitemapData) (su : List SitemapUrl) :
    (extractMetadata env url depth sd su).depth = depth := by
  cases h : env.fetch url <;> simp [extractMetadata, h]

theorem extractMetadata_failure (env : CrawlEnv) (url : String) (depth : Nat)
    (sd : Option SitemapData) (su : List SitemapUrl) (msg : String)
    (h : env.fetch url = .failure msg) :
    (extractMetadata env url depth sd su).error = some msg ∧
    (extractMetadata env url depth sd su).title = "" ∧
    (extractMetadata env url depth sd su).titleLength = 0 ∧
    (extractMetadata env url depth sd su).description = "" ∧
    (extractMetadata env url depth sd su).descriptionLength = 0 ∧
    (extractMetadata env url depth sd su).keywords = "" ∧
    (extractMetadata env url depth sd su).keywordsCount = 0 ∧
    (extractMetadata env url depth sd su).h1Count = 0 ∧
    (extractMetadata env url depth sd su).h1Text = "" ∧
    (extractMetadata env url depth sd su).links = [] := by
  simp [extractMetadata, h]

/-! ### The batch machinery -/

/-- Running one batch: the state gains a fresh, duplicate-free list `new` of
URLs (one per non-skipped task, in batch order) in both `visited` and
`fetched`, `processed` grows by their number (at most the batch size), the
queue and results are untouched, the produced results' URLs are exactly
`new`, and every produced result keeps its task's depth. -/
theorem runBatch_spec (env : CrawlEnv) (su : List SitemapUrl) :
    ∀ (batch : List QueueItem) (st : CrawlState),
    ∃ new : List String,
      (runBatch env su batch st).1 =
        { visited := st.visited ++ new
          queue := st.queue
          results := st.results
          processed := st.processed + new.length
          fetched := st.fetched ++ new } ∧
      ((runBatch env su batch st).2.filterMap id).map PageMetadata.url = new ∧
      (∀ x ∈ new, ¬ x ∈ st.visited) ∧
      new.Nodup ∧
      new.length ≤ batch.length ∧
      (∀ r : PageMetadata, some r ∈ (runBatch env su batch st).2 →
        ∃ item ∈ batch, r.depth = item.depth) := by
  intro batch
  induction batch with
  | nil =>
      intro st
      exact ⟨[], by simp [runBatch], by simp [runBatch], by simp, by simp, by simp,
        by simp [runBatch]⟩
  | cons item rest ih =>
      intro st
      by_cases hm : item.url ∈ st.visited
      case pos =>
          obtain ⟨new, h1, h2, h3, h4, h5, h6⟩ := ih st
          refine ⟨new, ?_, ?_, h3, h4, ?_, ?_⟩
          · simpa [runBatch, processItem, hm] using h1
          · simpa [runBatch, processItem, hm] using h2
          · exact Nat.le_succ_of_le h5
          · intro r hr
            have hr2 : some r ∈ (runBatch env su rest st).2 := by
              simpa [runBatch, processItem, hm] using hr
            obtain ⟨it, hit, hd⟩ := h6 r hr2
            exact ⟨it, List.mem_cons_of_mem _ hit, hd⟩
      case neg =>
          have hnm : ¬ item.url ∈ st.visited := hm
          obtain ⟨new, h1, h2, h3, h4, h5, h6⟩ :=
            ih { st with
                  visited := st.visited ++ [item.url]
                  processed := st.processed + 1
                  fetched := st.fetched ++ [item.url] }
          refine ⟨item.url :: new, ?_, ?_, ?_, ?_, ?_, ?_⟩
          · rw [show (runBatch env su (item :: rest) st).1 =
                (runBatch env su rest
                  { st with
                      visited := st.visited ++ [item.url]
                      processed := st.processed + 1
                      fetched := st.fetched ++ [item.url] }).1
              from by simp [runBatch, processItem, hnm], h1]
            simp [CrawlState.mk.injEq, List.append_assoc]
            omega
          · have hmap : (runBatch env su (item :: rest) st).2 =
                some (extractMetadata env item.url item.depth item.sitemapData su) ::
                  (runBatch env su rest
                    { st with
                        visited := st.visited ++ [item.url]
                        processed := st.processed + 1
                        fetched := st.fetched ++ [item.url] }).2 := by
              simp [runBatch, processItem, hnm]
            simp [hmap, extractMetadata_url, h2]
          · intro x hx
            rcases List.mem_cons.mp hx with hx | hx
            · subst hx; exact hnm
            · intro hmem
              exact h3 x hx (List.mem_append_left _ hmem)
          · refine List.Nodup.cons ?_ h4
            intro hmem
            exact h3 item.url hmem (List.mem_append_right _ (List.mem_singleton.mpr rfl))
          · simpa using Nat.succ_le_succ h5
          · intro r hr
            have hmap : (runBatch env su (item :: rest) st).2 =
                some (extractMetadata env item.url item.depth item.sitemapData su) ::
                  (runBatch env su rest
                    { st with
                        visited := st.visited ++ [item.url]
                        processed := st.processed + 1
                        fetched := st.fetched ++ [item.url] }).2 := by
              simp [runBatch, processItem, hnm]
            rw [hmap] at hr
            rcases List.mem_cons.mp hr with hr | hr
            · refine ⟨item, List.mem_cons_self _ _, ?_⟩
              have := congrArg PageMetadata.depth (Option.some.injEq _ _ ▸ hr)
              simpa [extractMetadata_depth] using this
            · obtain ⟨it, hit, hd⟩ := h6 r hr
              exact ⟨it, List.mem_cons_of_mem _ hit, hd⟩

/-- `Promise.all` resolves with exactly one outcome slot per task of the
batch (`null` for a skipped duplicate, a converted error result for a
failed fetch): nothing shortens or rejects the batch. -/
theorem runBatch_length (env : CrawlEnv) (su : List SitemapUrl) :
    ∀ (batch : List QueueItem) (st : CrawlState),
    (runBatch env su batch st).2.length = batch.length := by
  intro batch
  induction batch with
  | nil => intro st; simp [runBatch]
  | cons item rest ih => intro st; simp [runBatch, ih]

/-- Whenever a batch holds some task for a not-yet-visited URL whose fetch
fails, the batch's outcomes contain a converted error result for that URL:
the error message is recorded and every extracted field is default/empty. -/
theorem runBatch_failure_result (env : CrawlEnv) (su : List SitemapUrl) :
    ∀ (batch : List QueueItem) (st : CrawlState) (u msg : String),
    (∃ item ∈ batch, item.url = u) → ¬ u ∈ st.visited →
    env.fetch u = .failure msg →
    ∃ r : PageMetadata, some r ∈ (runBatch env su batch st).2 ∧ r.url = u ∧
      r.error = some msg ∧ r.title = "" ∧ r.titleLength = 0 ∧ r.description = "" ∧
      r.descriptionLength = 0 ∧ r.keywordsCount = 0 ∧ r.h1Count = 0 ∧ r.links = [] := by
  intro batch
  induction batch with
  | nil =>
      intro st u msg hex _ _
      obtain ⟨item, hmem, _⟩ := hex
      cases hmem
  | cons item0 rest ih =>
      intro st u msg hex hvis hfail
      by_cases hu : item0.url = u
      case pos =>
          have hnm : ¬ item0.url ∈ st.visited := by rw [hu]; exact hvis
          have hfail0 : env.fetch item0.url = .failure msg := by rw [hu]; exact hfail
          obtain ⟨he, ht2, htl, hde, hdl, _, hkc, hh, _, hli⟩ :=
            extractMetadata_failure env item0.url item0.depth item0.sitemapData su msg hfail0
          refine ⟨extractMetadata env item0.url item0.depth item0.sitemapData su, ?_,
            (extractMetadata_url env item0.url item0.depth item0.sitemapData su).trans hu,
            he, ht2, htl, hde, hdl, hkc, hh, hli⟩
          have hmap : (runBatch env su (item0 :: rest) st).2 =
              some (extractMetadata env item0.url item0.depth item0.sitemapData su) ::
                (runBatch env su rest
                  { st with
                      visited := st.visited ++ [item0.url]
                      processed := st.processed + 1
                      fetched := st.fetched ++ [item0.url] }).2 := by
            simp [runBatch, processItem, hnm]
          rw [hmap]
          exact List.mem_cons_self _ _
      case neg =>
          obtain ⟨item, hmem, hurl⟩ := hex
          have hmem2 : item ∈ rest := by
            rcases List.mem_cons.mp hmem with rfl | hmem2
            · exact absurd hurl hu
            · exact hmem2
          by_cases hm0 : item0.url ∈ st.visited
          case pos =>
              have hmap : (runBatch env su (item0 :: rest) st).2 =
                  none :: (runBatch env su rest st).2 := by
                simp [runBatch, processItem, hm0]
              obtain ⟨r, hrmem, hprops⟩ := ih st u msg ⟨item, hmem2, hurl⟩ hvis hfail
              rw [hmap]
              exact ⟨r, List.mem_cons_of_mem _ hrmem, hprops⟩
          case neg =>
              have hvis1 : ¬ u ∈ st.visited ++ [item0.url] := by
                intro h
                rcases List.mem_append.mp h with h | h
                · exact hvis h
                · rw [List.mem_singleton] at h
                  exact hu h.symm
              have hmap : (runBatch env su (item0 :: rest) st).2 =
                  some (extractMetadata env item0.url item0.depth item0.sitemapData su) ::
                    (runBatch env su rest
                      { st with
                          visited := st.visited ++ [item0.url]
                          processed := st.processed + 1
                          fetched := st.fetched ++ [item0.url] }).2 := by
                simp [runBatch, processItem, hm0]
              obtain ⟨r, hrmem, hprops⟩ :=
                ih { st with
                      visited := st.visited ++ [item0.url]
                      processed := st.processed + 1
                      fetched := st.fetched ++ [item0.url] }
                  u msg ⟨item, hmem2, hurl⟩ hvis1 hfail
              rw [hmap]
              exact ⟨r, List.mem_cons_of_mem _ hrmem, hprops⟩

/-- Link discovery only appends to the queue: the appended tasks each come
from some produced result at depth strictly below `maxDepth`, with
`followLinks` on, and sit one level deeper. -/
theorem enqueueLinks_spec (opts : CrawlOptions) :
    ∀ (rs : List (Option PageMetadata)) (st : CrawlState),
    ∃ items : List QueueItem,
      enqueueLinks opts st rs = { st with queue := st.queue ++ items } ∧
      ∀ q ∈ items, ∃ r : PageMetadata, some r ∈ rs ∧ opts.followLinks = true ∧
        r.depth < opts.depth ∧ q.depth = r.depth + 1 := by
  intro rs
  induction rs with
  | nil =>
      intro st
      exact ⟨[], by simp [enqueueLinks], by simp⟩
  | cons r0 rest ih =>
      intro st
      cases r0 with
      | none =>
          obtain ⟨items, h1, h2⟩ := ih st
          refine ⟨items, ?_, ?_⟩
          · simpa [enqueueLinks] using h1
          · intro q hq
            obtain ⟨r, hr, hf, hd, he⟩ := h2 q hq
            exact ⟨r, List.mem_cons_of_mem _ hr, hf, hd, he⟩
      | some result =>
          by_cases hcond : opts.followLinks = true ∧ result.depth < opts.depth
          case pos =>
              have hstep : enqueueLinks opts st (some result :: rest) =
                  enqueueLinks opts
                    { st with queue := st.queue ++ linkItems st.visited result } rest := by
                simp [enqueueLinks, hcond.1, hcond.2]
              obtain ⟨items, h1, h2⟩ :=
                ih { st with queue := st.queue ++ linkItems st.visited result }
              refine ⟨linkItems st.visited result ++ items, ?_, ?_⟩
              · rw [hstep, h1]
                simp [CrawlState.mk.injEq, List.append_assoc]
              · intro q hq
                rcases List.mem_append.mp hq with hq | hq
                · simp only [linkItems] at hq
                  obtain ⟨l, _, rfl⟩ := List.mem_map.mp hq
                  exact ⟨result, List.mem_cons_self _ _, hcond.1, hcond.2, rfl⟩
                · obtain ⟨r, hr, hf, hd, he⟩ := h2 q hq
                  exact ⟨r, List.mem_cons_of_mem _ hr, hf, hd, he⟩
          case neg =>
              have hstep : enqueueLinks opts st (some result :: rest) =
                  enqueueLinks opts st rest := by
                simp only [enqueueLinks, List.foldl_cons]
                congr 1
                rw [if_neg hcond]
              obtain ⟨items, h1, h2⟩ := ih st
              refine ⟨items, ?_, ?_⟩
              · rw [hstep, h1]
              · intro q hq
                obtain ⟨r, hr, hf, hd, he⟩ := h2 q hq
                exact ⟨r, List.mem_cons_of_mem _ hr, hf, hd, he⟩

/-- One loop iteration: `processed` grows by the number of fresh batch URLs
(at most `concurrency`), those URLs extend `visited` and `fetched`, one
result per fresh URL is appended keeping its task's depth, and the queue
loses the dispatched batch and gains only link tasks one level deeper than
a produced result of depth below `maxDepth` (and only with `followLinks`). -/
theorem crawlStep_spec (env : CrawlEnv) (su : List SitemapUrl)
    (opts : CrawlOptions) (st : CrawlState) :
    ∃ (new : List String) (newResults : List PageMetadata) (items : List QueueItem),
      crawlStep env su opts st =
        { visited := st.visited ++ new
          queue := st.queue.drop opts.concurrency ++ items
          results := st.results ++ newResults
          processed := st.processed + new.length
          fetched := st.fetched ++ new } ∧
      newResults.map PageMetadata.url = new ∧
      (∀ x ∈ new, ¬ x ∈ st.visited) ∧
      new.Nodup ∧
      new.length ≤ opts.concurrency ∧
      (∀ r ∈ newResults, ∃ item ∈ st.queue, r.depth = item.depth) ∧
      (∀ q ∈ items, opts.followLinks = true ∧
        ∃ r ∈ newResults, r.depth < opts.depth ∧ q.depth = r.depth + 1) := by
  obtain ⟨new, hb1, hb2, hb3, hb4, hb5, hb6⟩ :=
    runBatch_spec env su (st.queue.take opts.concurrency)
      { st with queue := st.queue.drop opts.concurrency }
  obtain ⟨items, he1, he2⟩ :=
    enqueueLinks_spec opts
      ((runBatch env su (st.queue.take opts.concurrency)
          { st with queue := st.queue.drop opts.concurrency }).2)
      (pushResults
        (runBatch env su (st.queue.take opts.concurrency)
            { st with queue := st.queue.drop opts.concurrency }).1
        (runBatch env su (st.queue.take opts.concurrency)
            { st with queue := st.queue.drop opts.concurrency }).2)
  refine ⟨new,
    (runBatch env su (st.queue.take opts.concurrency)
        { st with queue := st.queue.drop opts.concurrency }).2.filterMap id,
    items, ?_, hb2, hb3, hb4, ?_, ?_, ?_⟩
  · rw [show crawlStep env su opts st =
        enqueueLinks opts
          (pushResults
            (runBatch env su (st.queue.take opts.concurrency)
                { st with queue := st.queue.drop opts.concurrency }).1
            (runBatch env su (st.queue.take opts.concurrency)
                { st with queue := st.queue.drop opts.concurrency }).2)
          ((runBatch env su (st.queue.take opts.concurrency)
              { st with queue := st.queue.drop opts.concurrency }).2)
      from rfl, he1]
    simp [pushResults, hb1]
  · exact hb5.trans (by simpa using List.length_take_le opts.concurrency st.queue)
  · intro r hr
    have : some r ∈ (runBatch env su (st.queue.take opts.concurrency)
        { st with queue := st.queue.drop opts.concurrency }).2 := by
      obtain ⟨a, ha, hae⟩ := List.mem_filterMap.mp hr
      simp only [id_eq] at hae
      exact hae ▸ ha
    obtain ⟨item, hit, hd⟩ := hb6 r this
    exact ⟨item, List.take_subset _ _ hit, hd⟩
  · intro q hq
    obtain ⟨r, hr, hf, hd, he⟩ := he2 q hq
    refine ⟨hf, r, ?_, hd, he⟩
    exact List.mem_filterMap.mpr ⟨some r, hr, rfl⟩

/-! ### Invariants of the main loop -/

/-- The alignment invariant: the visited set is exactly the result URLs (in
order) and has no duplicates; preserved by every loop iteration. -/
theorem crawlLoop_inv1 (env : CrawlEnv) (su : List SitemapUrl) (opts : CrawlOptions) :
    ∀ (fuel : Nat) (st : CrawlState),
    st.visited = st.results.map PageMetadata.url → st.visited.Nodup →
    (crawlLoop env su opts fuel st).visited =
      (crawlLoop env su opts fuel st).results.map PageMetadata.url ∧
    (crawlLoop env su opts fuel st).visited.Nodup := by
  intro fuel
  induction fuel with
  | zero => intro st h1 h2; simpa [crawlLoop] using ⟨h1, h2⟩
  | succ fuel ih =>
      intro st h1 h2
      by_cases hcond : st.queue ≠ [] ∧ st.processed < opts.limit
      case pos =>
          rw [show crawlLoop env su opts (fuel + 1) st =
              crawlLoop env su opts fuel (crawlStep env su opts st)
            from by simp [crawlLoop, hcond]]
          obtain ⟨new, newResults, items, hs1, hs2, hs3, hs4, hs5, hs6, hs7⟩ :=
            crawlStep_spec env su opts st
          refine ih _ ?_ ?_
          · rw [hs1]
            simp only [List.map_append, hs2]
            rw [h1]
          · rw [hs1]
            simp only
            exact List.nodup_append.mpr ⟨h2, hs4, fun a ha hb => hs3 a hb ha⟩
      case neg =>
          rw [show crawlLoop env su opts (fuel + 1) st = st
            from by simp [crawlLoop, hcond]]
          exact ⟨h1, h2⟩

/-- Budget: the loop only starts a batch while `processed < limit`, and a
batch adds at most `concurrency`, so `processed` never passes
`max (initial processed) (limit - 1 + concurrency)`. -/
theorem crawlLoop_processed (env : CrawlEnv) (su : List SitemapUrl) (opts : CrawlOptions) :
    ∀ (fuel : Nat) (st : CrawlState),
    (crawlLoop env su opts fuel st).processed ≤
      max st.processed (opts.limit - 1 + opts.concurrency) := by
  intro fuel
  induction fuel with
  | zero => intro st; simp [crawlLoop]
  | succ fuel ih =>
      intro st
      by_cases hcond : st.queue ≠ [] ∧ st.processed < opts.limit
      case pos =>
          rw [show crawlLoop env su opts (fuel + 1) st =
              crawlLoop env su opts fuel (crawlStep env su opts st)
            from by simp [crawlLoop, hcond]]
          have hstep : (crawlStep env su opts st).processed ≤
              opts.limit - 1 + opts.concurrency := by
            obtain ⟨new, newResults, items, hs1, _, _, _, hs5, _, _⟩ :=
              crawlStep_spec env su opts st
            rw [hs1]
            have := hcond.2
            simp only
            omega
          exact (ih _).trans (max_le (hstep.trans (le_max_right _ _)) (le_max_right _ _))
      case neg =>
          rw [show crawlLoop env su opts (fuel + 1) st = st
            from by simp [crawlLoop, hcond]]
          exact le_max_left _ _

/-- Depth bound: if every queued task sits at depth at most `maxDepth`
(and at 0 when `followLinks` is off), then every result the loop ever
records is either one of the pre-seeded results `C` or obeys the same
bounds: links are enqueued at `depth + 1` only from results of depth
strictly below `maxDepth`, and only with `followLinks` on. -/
theorem crawlLoop_depth (env : CrawlEnv) (su : List SitemapUrl) (opts : CrawlOptions)
    (C : List PageMetadata) :
    ∀ (fuel : Nat) (st : CrawlState),
    (∀ q ∈ st.queue, q.depth ≤ opts.depth ∧ (opts.followLinks = false → q.depth = 0)) →
    (∀ r ∈ st.results, r ∈ C ∨
      (r.depth ≤ opts.depth ∧ (opts.followLinks = false → r.depth = 0))) →
    (∀ q ∈ (crawlLoop env su opts fuel st).queue,
      q.depth ≤ opts.depth ∧ (opts.followLinks = false → q.depth = 0)) ∧
    (∀ r ∈ (crawlLoop env su opts fuel st).results, r ∈ C ∨
      (r.depth ≤ opts.depth ∧ (opts.followLinks = false → r.depth = 0))) := by
  intro fuel
  induction fuel with
  | zero => intro st h1 h2; simpa [crawlLoop] using ⟨h1, h2⟩
  | succ fuel ih =>
      intro st h1 h2
      by_cases hcond : st.queue ≠ [] ∧ st.processed < opts.limit
      case pos =>
          rw [show crawlLoop env su opts (fuel + 1) st =
              crawlLoop env su opts fuel (crawlStep env su opts st)
            from by simp [crawlLoop, hcond]]
          obtain ⟨new, newResults, items, hs1, hs2, hs3, hs4, hs5, hs6, hs7⟩ :=
            crawlStep_spec env su opts st
          have hnr : ∀ r ∈ newResults,
              r.depth ≤ opts.depth ∧ (opts.followLinks = false → r.depth = 0) := by
            intro r hr
            obtain ⟨item, hit, hd⟩ := hs6 r hr
            exact hd ▸ h1 item hit
          refine ih _ ?_ ?_
          · rw [hs1]
            simp only
            intro q hq
            rcases List.mem_append.mp hq with hq | hq
            · exact h1 q (List.drop_subset _ _ hq)
            · obtain ⟨hfl, r, hr, hlt, he⟩ := hs7 q hq
              refine ⟨by omega, fun hf => ?_⟩
              rw [hf] at hfl
              exact absurd hfl (by simp)
          · rw [hs1]
            simp only
            intro r hr
            rcases List.mem_append.mp hr with hr | hr
            · exact h2 r hr
            · exact Or.inr (hnr r hr)
      case neg =>
          rw [show crawlLoop env su opts (fuel + 1) st = st
            from by simp [crawlLoop, hcond]]
          exact ⟨h1, h2⟩

/-- A URL already visited and never fetched stays visited and never
fetched: the batch only fetches URLs outside the visited set. -/
theorem crawlLoop_fresh (env : CrawlEnv) (su : List SitemapUrl) (opts : CrawlOptions) :
    ∀ (fuel : Nat) (st : CrawlState) (x : String),
    x ∈ st.visited → ¬ x ∈ st.fetched →
    x ∈ (crawlLoop env su opts fuel st).visited ∧
    ¬ x ∈ (crawlLoop env su opts fuel st).fetched := by
  intro fuel
  induction fuel with
  | zero => intro st x h1 h2; simpa [crawlLoop] using ⟨h1, h2⟩
  | succ fuel ih =>
      intro st x h1 h2
      by_cases hcond : st.queue ≠ [] ∧ st.processed < opts.limit
      case pos =>
          rw [show crawlLoop env su opts (fuel + 1) st =
              crawlLoop env su opts fuel (crawlStep env su opts st)
            from by simp [crawlLoop, hcond]]
          obtain ⟨new, newResults, items, hs1, hs2, hs3, hs4, hs5, hs6, hs7⟩ :=
            crawlStep_spec env su opts st
          refine ih _ x ?_ ?_
          · rw [hs1]
            exact List.mem_append_left _ h1
          · rw [hs1]
            simp only
            intro hmem
            rcases List.mem_append.mp hmem with hmem | hmem
            · exact h2 hmem
            · exact hs3 x hmem h1
      case neg =>
          rw [show crawlLoop env su opts (fuel + 1) st = st
            from by simp [crawlLoop, hcond]]
          exact ⟨h1, h2⟩

/-! ### Seeding lemmas -/

theorem setAdd_subset (s : List String) (y x : String) (h : x ∈ s) : x ∈ setAdd s y := by
  unfold setAdd
  split
  · exact h
  · exact List.mem_append_left _ h

theorem setAdd_mem_self (s : List String) (y : String) : y ∈ setAdd s y := by
  unfold setAdd
  split
  case isTrue h => simpa using h
  case isFalse h => exact List.mem_append_right _ (by simp)

theorem foldl_setAdd_subset (pages : List PageMetadata) :
    ∀ (s : List String) (x : String), x ∈ s →
    x ∈ pages.foldl (fun acc p => setAdd acc p.url) s := by
  induction pages with
  | nil => intro s x h; simpa using h
  | cons p ps ih =>
      intro s x h
      rw [List.foldl_cons]
      exact ih _ x (setAdd_subset _ _ _ h)

theorem foldl_setAdd_mem (pages : List PageMetadata) :
    ∀ (s : List String) (p : PageMetadata), p ∈ pages →
    p.url ∈ pages.foldl (fun acc p => setAdd acc p.url) s := by
  induction pages with
  | nil => intro s p h; cases h
  | cons q ps ih =>
      intro s p h
      rw [List.foldl_cons]
      rcases List.mem_cons.mp h with h | h
      · subst h
        exact foldl_setAdd_subset ps _ _ (setAdd_mem_self _ _)
      · exact ih _ p h

/-- When the cache URLs are duplicate-free, JS `Set` insertion preserves
them in order. -/
theorem foldl_setAdd_eq_of_nodup :
    ∀ (pages : List PageMetadata) (s : List String),
    (s ++ pages.map PageMetadata.url).Nodup →
    pages.foldl (fun acc p => setAdd acc p.url) s = s ++ pages.map PageMetadata.url := by
  intro pages
  induction pages with
  | nil => intro s h; simp
  | cons p ps ih =>
      intro s h
      have hp : ¬ p.url ∈ s := by
        rw [List.nodup_append] at h
        exact fun hs => h.2.2 hs (by simp)
      have hset : setAdd s p.url = s ++ [p.url] := by
        simp [setAdd, hp]
      rw [List.foldl_cons, hset, ih (s ++ [p.url]) (by simpa [List.append_assoc] using h)]
      simp

/-- Sitemap seeding exactly: with the budget open it appends precisely the
unvisited sitemap URLs (the guard never re-checks a count), and with the
budget closed it appends nothing. -/
theorem seedSitemap_spec (opts : CrawlOptions) :
    ∀ (su : List SitemapUrl) (st : CrawlState),
    (st.processed < opts.limit →
      seedSitemap opts su st =
        { st with queue := st.queue ++
            (su.filter (fun i => ¬ st.visited.contains i.url)).map sitemapQueueItem }) ∧
    (¬ st.processed < opts.limit → seedSitemap opts su st = st) := by
  intro su
  induction su with
  | nil => intro st; constructor <;> intro h <;> simp [seedSitemap]
  | cons i su ih =>
      intro st
      constructor
      · intro hlt
        by_cases hv : i.url ∈ st.visited
        case pos =>
            have hstep : seedSitemap opts (i :: su) st = seedSitemap opts su st := by
              simp [seedSitemap, List.foldl_cons, hv]
            rw [hstep, (ih st).1 hlt]
            simp [hv]
        case neg =>
            have hstep : seedSitemap opts (i :: su) st =
                seedSitemap opts su { st with queue := st.queue ++ [sitemapQueueItem i] } := by
              simp [seedSitemap, List.foldl_cons, hv, hlt]
            rw [hstep,
              (ih { st with queue := st.queue ++ [sitemapQueueItem i] }).1 hlt]
            simp [CrawlState.mk.injEq, hv, List.append_assoc]
      · intro hge
        have hstep : seedSitemap opts (i :: su) st = seedSitemap opts su st := by
          simp [seedSitemap, List.foldl_cons, hge]
        rw [hstep, (ih st).2 hge]

/-- Base seeding only appends (at most) the depth-0 base task. -/
theorem seedBase_spec (opts : CrawlOptions) (baseUrl : String) (st : CrawlState) :
    ∃ items : List QueueItem,
      seedBase opts baseUrl st = { st with queue := st.queue ++ items } ∧
      ∀ q ∈ items, q.depth = 0 := by
  unfold seedBase
  split
  · exact ⟨[{ url := baseUrl, depth := 0, sitemapData := none }], rfl, by simp⟩
  · exact ⟨[], by simp, by simp⟩

/-- The seeded initial state: visited, results, processed and fetched come
from the cache seed alone, and every seeded task sits at depth 0. -/
theorem initialState_spec (opts : CrawlOptions) (cache : Option (List PageMetadata))
    (su : List SitemapUrl) (baseUrl : String) :
    (initialState opts cache su baseUrl).visited = (seedFromCache cache).visited ∧
    (initialState opts cache su baseUrl).results = (seedFromCache cache).results ∧
    (initialState opts cache su baseUrl).processed = (seedFromCache cache).processed ∧
    (initialState opts cache su baseUrl).fetched = [] ∧
    (∀ q ∈ (initialState opts cache su baseUrl).queue, q.depth = 0) := by
  unfold initialState
  obtain ⟨items2, hb1, hb2⟩ := seedBase_spec opts baseUrl (seedSitemap opts su (seedFromCache cache))
  by_cases hlt : (seedFromCache cache).processed < opts.limit
  case pos =>
      have hs := (seedSitemap_spec opts su (seedFromCache cache)).1 hlt
      rw [hs] at hb1 ⊢
      rw [hb1]
      refine ⟨rfl, rfl, rfl, ?_, ?_⟩
      · show (seedFromCache cache).fetched = []
        cases cache <;> simp [seedFromCache]
      · intro q hq
        simp only at hq
        rcases List.mem_append.mp hq with hq | hq
        · rcases List.mem_append.mp hq with hq | hq
          · exact absurd hq (by cases cache <;> simp [seedFromCache])
          · obtain ⟨i, _, rfl⟩ := List.mem_map.mp hq
            rfl
        · exact hb2 q hq
  case neg =>
      have hs := (seedSitemap_spec opts su (seedFromCache cache)).2 hlt
      rw [hs] at hb1 ⊢
      rw [hb1]
      refine ⟨rfl, rfl, rfl, ?_, ?_⟩
      · show (seedFromCache cache).fetched = []
        cases cache <;> simp [seedFromCache]
      · intro q hq
        simp only at hq
        rcases List.mem_append.mp hq with hq | hq
        · exact absurd hq (by cases cache <;> simp [seedFromCache])
        · exact hb2 q hq

/-! ### The claims -/

/-- C1: for every crawl run, at the end of the run the number of elements
in the visited set equals the number of `PageResult`s in the result
collection, and no URL appears twice in the result collection, given that
the loaded cache contained no duplicate URLs. -/
theorem c1_visited_matches_results (env : CrawlEnv) (opts : CrawlOptions)
    (cache : Option (List PageMetadata)) (su : List SitemapUrl)
    (baseUrl : String) (fuel : Nat)
    (hnd : ∀ pages, cache = some pages → (pages.map PageMetadata.url).Nodup) :
    (crawlRun env opts cache su baseUrl fuel).visited.length =
      (crawlRun env opts cache su baseUrl fuel).results.length ∧
    ((crawlRun env opts cache su baseUrl fuel).results.map PageMetadata.url).Nodup := by
  have hinit1 : (initialState opts cache su baseUrl).visited =
      (initialState opts cache su baseUrl).results.map PageMetadata.url := by
    obtain ⟨h1, h2, _, _, _⟩ := initialState_spec opts cache su baseUrl
    rw [h1, h2]
    cases cache with
    | none => simp [seedFromCache]
    | some pages =>
        simp only [seedFromCache]
        exact (foldl_setAdd_eq_of_nodup pages [] (by simpa using hnd pages rfl)).trans
          (by simp)
  have hinit2 : (initialState opts cache su baseUrl).visited.Nodup := by
    rw [hinit1]
    obtain ⟨_, h2, _, _, _⟩ := initialState_spec opts cache su baseUrl
    rw [h2]
    cases cache with
    | none => simp [seedFromCache]
    | some pages =>
        simp only [seedFromCache]
        exact hnd pages rfl
  obtain ⟨ha, hb⟩ := crawlLoop_inv1 env su opts fuel _ hinit1 hinit2
  unfold crawlRun
  exact ⟨by rw [ha, List.length_map], ha ▸ hb⟩

/-- C1 witness: a concrete no-cache run. -/
theorem c1_witness :
    (crawlRun envFailW optsW none suW ("https://w.example") 3).visited.length =
      (crawlRun envFailW optsW none suW ("https://w.example") 3).results.length ∧
    ((crawlRun envFailW optsW none suW ("https://w.example") 3).results.map
      PageMetadata.url).Nodup :=
  c1_visited_matches_results envFailW optsW none suW ("https://w.example") 3
    (fun _ h => Option.noConfusion h)

/-- C2 counterexample: with `pageLimit = 1` and `concurrency = 2`, a single
batch of two sitemap URLs pushes `processed` to 2, strictly past the limit,
so the `processed` counter does exceed N during a run. -/
theorem c2_counterexample :
    optsLimitOneW.limit <
      (crawlRun envFailW optsLimitOneW none suW ("https://w.example") 2).processed := by
  decide

/-- C2 amended: the limit is enforced only at batch boundaries — a batch
starts only while `processed < limit` and adds at most `concurrency`, so
`processed` never exceeds `max (initial processed) (limit - 1 + concurrency)`;
with no cached pages that is `limit - 1 + concurrency`. -/
theorem c2_processed_batch_bound (env : CrawlEnv) (opts : CrawlOptions)
    (cache : Option (List PageMetadata)) (su : List SitemapUrl)
    (baseUrl : String) (fuel : Nat) :
    (crawlRun env opts cache su baseUrl fuel).processed ≤
      max (initialState opts cache su baseUrl).processed
        (opts.limit - 1 + opts.concurrency) ∧
    (crawlRun env opts none su baseUrl fuel).processed ≤
      opts.limit - 1 + opts.concurrency := by
  constructor
  · exact crawlLoop_processed env su opts fuel _
  · have h := crawlLoop_processed env su opts fuel (initialState opts none su baseUrl)
    obtain ⟨_, _, hp, _, _⟩ := initialState_spec opts none su baseUrl
    rw [hp] at h
    simpa [seedFromCache] using h

/-- C3: every result recorded during a run is either a page loaded from
the cache (which keeps the depth recorded by the earlier run) or sits at
depth at most `maxDepth`, and at depth 0 when `followLinks` is disabled
(which single-page mode forces): sitemap and seed tasks enter at depth 0,
and links enter at `depth + 1` only from a result with depth strictly
below `maxDepth` and only with `followLinks` on. -/
theorem c3_depth_bounds (env : CrawlEnv) (opts : CrawlOptions)
    (cache : Option (List PageMetadata)) (su : List SitemapUrl)
    (baseUrl : String) (fuel : Nat) :
    ∀ r ∈ (crawlRun env opts cache su baseUrl fuel).results,
      r ∈ cache.getD [] ∨
      (r.depth ≤ opts.depth ∧ (opts.followLinks = false → r.depth = 0)) := by
  obtain ⟨_, hres, _, _, hq⟩ := initialState_spec opts cache su baseUrl
  have hqb : ∀ q ∈ (initialState opts cache su baseUrl).queue,
      q.depth ≤ opts.depth ∧ (opts.followLinks = false → q.depth = 0) :=
    fun q hq2 => ⟨(hq q hq2) ▸ Nat.zero_le _, fun _ => hq q hq2⟩
  have hrb : ∀ r ∈ (initialState opts cache su baseUrl).results, r ∈ cache.getD [] ∨
      (r.depth ≤ opts.depth ∧ (opts.followLinks = false → r.depth = 0)) := by
    rw [hres]
    cases cache with
    | none => simp [seedFromCache]
    | some pages => intro r hr; exact Or.inl (by simpa [seedFromCache] using hr)
  exact (crawlLoop_depth env su opts (cache.getD []) fuel _ hqb hrb).2

/-- C3 witness: a concrete cache-free `followLinks = false` run; its first
recorded result has depth 0. -/
theorem c3_witness :
    ((crawlRun envFailW optsNoFollowW none suW ("https://w.example") 3).results.getD
      0 dummyPageW).depth = 0 :=
  ((c3_depth_bounds envFailW optsNoFollowW none suW ("https://w.example") 3 _
      (by decide)).resolve_left (by decide)).2 rfl

/-- C4: for every task of a dispatched batch — any batch size, any
position in the batch — whose fetch fails and whose URL is not yet
visited, the failure is converted into a `PageResult` carrying the error
message with default/empty extracted fields and integrated into the result
collection; the batch still resolves with one outcome per task (the
failure is never propagated to fail the batch); and the loop then
continues into the remaining state to process subsequent batches. -/
theorem c4_failure_converted_and_crawl_continues (env : CrawlEnv)
    (su : List SitemapUrl) (opts : CrawlOptions) (st : CrawlState)
    (item : QueueItem) (msg : String) (fuel : Nat)
    (hitem : item ∈ st.queue.take opts.concurrency)
    (hfail : env.fetch item.url = .failure msg)
    (hvis : ¬ item.url ∈ st.visited)
    (hlt : st.processed < opts.limit) :
    (∃ r : PageMetadata,
       r ∈ (crawlStep env su opts st).results ∧ r.url = item.url ∧
       r.error = some msg ∧ r.title = "" ∧ r.titleLength = 0 ∧
       r.description = "" ∧ r.descriptionLength = 0 ∧ r.keywordsCount = 0 ∧
       r.h1Count = 0 ∧ r.links = []) ∧
    (runBatch env su (st.queue.take opts.concurrency)
        { st with queue := st.queue.drop opts.concurrency }).2.length =
      (st.queue.take opts.concurrency).length ∧
    crawlLoop env su opts (fuel + 1) st =
      crawlLoop env su opts fuel (crawlStep env su opts st) := by
  have hqne : st.queue ≠ [] := by
    intro h
    rw [h] at hitem
    simp at hitem
  refine ⟨?_, runBatch_length env su _ _, by simp [crawlLoop, hqne, hlt]⟩
  obtain ⟨r, hrmem, hprops⟩ :=
    runBatch_failure_result env su (st.queue.take opts.concurrency)
      { st with queue := st.queue.drop opts.concurrency } item.url msg
      ⟨item, hitem, rfl⟩ hvis hfail
  refine ⟨r, ?_, hprops⟩
  obtain ⟨items, he1, _⟩ :=
    enqueueLinks_spec opts
      ((runBatch env su (st.queue.take opts.concurrency)
          { st with queue := st.queue.drop opts.concurrency }).2)
      (pushResults
        (runBatch env su (st.queue.take opts.concurrency)
            { st with queue := st.queue.drop opts.concurrency }).1
        (runBatch env su (st.queue.take opts.concurrency)
            { st with queue := st.queue.drop opts.concurrency }).2)
  rw [show crawlStep env su opts st =
      enqueueLinks opts
        (pushResults
          (runBatch env su (st.queue.take opts.concurrency)
              { st with queue := st.queue.drop opts.concurrency }).1
          (runBatch env su (st.queue.take opts.concurrency)
              { st with queue := st.queue.drop opts.concurrency }).2)
        ((runBatch env su (st.queue.take opts.concurrency)
            { st with queue := st.queue.drop opts.concurrency }).2)
    from rfl, he1]
  simp only [pushResults]
  exact List.mem_append_right _ (List.mem_filterMap.mpr ⟨some r, hrmem, rfl⟩)

/-- C4 witness: a two-task batch (concurrency 5) whose second task fails:
the error result for it is integrated, the batch resolves both tasks, and
the loop proceeds. -/
theorem c4_witness :
    (∃ r : PageMetadata,
       r ∈ (crawlStep envFailW suW optsW stC4W).results ∧ r.url = itemC4W2.url ∧
       r.error = some ("timeout") ∧ r.title = "" ∧ r.titleLength = 0 ∧
       r.description = "" ∧ r.descriptionLength = 0 ∧ r.keywordsCount = 0 ∧
       r.h1Count = 0 ∧ r.links = []) ∧
    (runBatch envFailW suW (stC4W.queue.take optsW.concurrency)
        { stC4W with queue := stC4W.queue.drop optsW.concurrency }).2.length =
      (stC4W.queue.take optsW.concurrency).length ∧
    crawlLoop envFailW suW optsW (3 + 1) stC4W =
      crawlLoop envFailW suW optsW 3 (crawlStep envFailW suW optsW stC4W) :=
  c4_failure_converted_and_crawl_continues envFailW suW optsW stC4W itemC4W2
    ("timeout") 3 (by decide) rfl (by decide) (by decide)

/-- C5: the monolithic variant's pre-crawl check — without `force`, a cache
fresher than 24 hours short-circuits the run: the cached pages are the
result collection handed to report generation, no sitemap resolution and no
fetch happens; with `force` set the check always proceeds to a full crawl. -/
theorem c5_cache_short_circuit (env : CrawlEnv) (su : List SitemapUrl)
    (opts : CrawlOptions) (c : CacheFile) (d now : Int) (baseUrl : String) (fuel : Nat) :
    (c.crawlDate = some d → now - d < 86400000 →
      crawlMain env su opts false (some c) now baseUrl fuel =
        { results := c.pages, fetched := [], sitemapResolved := false }) ∧
    (∀ cache : Option CacheFile, cacheCheck true cache now = CacheCheckResult.proceed) := by
  constructor
  · intro h1 h2
    simp [crawlMain, cacheCheck, h1, h2]
  · intro cache
    simp [cacheCheck]

/-- C5 witness: a concrete fresh cache short-circuits. -/
theorem c5_witness :
    crawlMain envFailW suW optsW false (some cacheFileW) 1000 ("https://w.example") 3 =
      { results := cacheFileW.pages, fetched := [], sitemapResolved := false } :=
  (c5_cache_short_circuit envFailW suW optsW cacheFileW 0 1000 ("https://w.example") 3).1
    rfl (by decide)

/-- C6 counterexample: the structured-data (JSON) output embeds the
generation timestamp (`crawlDate: new Date().toISOString()`), so rendering
the same (empty) result collection at two different instants yields
different bytes — the claim's JSON half is false. -/
theorem c6_counterexample :
    renderJsonOutput [] ("2024-01-01T00:00:00.000Z") ("https://w.example") optsW ≠
      renderJsonOutput [] ("2024-01-02T00:00:00.000Z") ("https://w.example") optsW := by
  decide

/-- C6 amended: only the tabular (CSV) rendering is independent of the
clock — rendering an unchanged result collection at any two instants is
byte-identical; the structured-data (JSON) output, like the document (HTML)
output, embeds a generation timestamp and is exempt. -/
theorem c6_csv_render_idempotent (pages : List PageMetadata) (t1 t2 : String) :
    renderCsvOutput pages t1 = renderCsvOutput pages t2 := rfl

/-- C7 counterexample: sitemap seeding with `pageLimit = 1` and two fresh
sitemap URLs enqueues both (the guard never counts queued tasks), so at the
end of seeding `processed + queued` exceeds the limit. -/
theorem c7_counterexample :
    ¬ ((seedSitemap optsLimitOneW suW (seedFromCache none)).processed +
        (seedSitemap optsLimitOneW suW (seedFromCache none)).queue.length ≤
          optsLimitOneW.limit) := by
  decide

/-- C7 amended: sitemap seeding checks only `processed < pageLimit`, a
condition constant during seeding — when it holds, every not-yet-visited
sitemap URL is enqueued (so `processed + queued` may exceed the limit,
which is instead enforced at batch dispatch); when it fails, nothing is. -/
theorem c7_sitemap_seeding_guard (opts : CrawlOptions) (su : List SitemapUrl)
    (st : CrawlState) :
    (st.processed < opts.limit →
      seedSitemap opts su st =
        { st with queue := st.queue ++
            (su.filter (fun i => ¬ st.visited.contains i.url)).map sitemapQueueItem }) ∧
    (opts.limit ≤ st.processed → seedSitemap opts su st = st) := by
  refine ⟨(seedSitemap_spec opts su st).1, fun h => (seedSitemap_spec opts su st).2 ?_⟩
  omega

/-- C7 witness: a concrete seeding that enqueues both sitemap URLs. -/
theorem c7_witness :
    seedSitemap optsW suW (seedFromCache none) =
      { seedFromCache none with
          queue := (seedFromCache none).queue ++
            (suW.filter
              (fun i => ¬ (seedFromCache none).visited.contains i.url)).map
              sitemapQueueItem } :=
  (c7_sitemap_seeding_guard optsW suW (seedFromCache none)).1 (by decide)

/-- C8: the sitemap resolver recursively flattens a sitemap index: an index
resolves to the concatenation of its children's resolutions (at any
nesting), and in particular an index over two child sitemaps of two URLs
each — even with one child nested one level deeper — yields the four URLs
flattened in order. -/
theorem c8_sitemap_index_flattening :
    (∀ children : List SitemapDoc,
      parseSitemap (SitemapDoc.index children) = (children.map parseSitemap).flatten) ∧
    (∀ e1 e2 e3 e4 : SitemapEntry,
      parseSitemap (SitemapDoc.index
        [SitemapDoc.index [SitemapDoc.urlset [some e1, some e2]],
         SitemapDoc.urlset [some e3, some e4]]) =
      [entryToSitemapUrl e1, entryToSitemapUrl e2,
       entryToSitemapUrl e3, entryToSitemapUrl e4]) := by
  have hjoin : ∀ l : List SitemapDoc,
      parseSitemap.parseChildren l = (l.map parseSitemap).flatten := by
    intro l
    induction l with
    | nil => simp [parseSitemap.parseChildren]
    | cons c rest ih => simp [parseSitemap.parseChildren, ih]
  constructor
  · intro children
    simpa [parseSitemap] using hjoin children
  · intro e1 e2 e3 e4
    simp [parseSitemap, parseSitemap.parseChildren]

/-- C9: a URL cached with all three suggestion fields populated is seeded
into the visited set from the cache, so a re-run against the same target
never invokes the fetch/extract collaborator for it. -/
theorem c9_cached_url_not_refetched (env : CrawlEnv) (opts : CrawlOptions)
    (su : List SitemapUrl) (baseUrl : String) (fuel : Nat)
    (pages : List PageMetadata) (R : PageMetadata)
    (hmem : R ∈ pages)
    (ht : R.suggestedTitle.isSome = true)
    (hd : R.suggestedDescription.isSome = true)
    (hk : R.suggestedKeywords.isSome = true) :
    ¬ R.url ∈ (crawlRun env opts (some pages) su baseUrl fuel).fetched := by
  have hv : R.url ∈ (initialState opts (some pages) su baseUrl).visited := by
    obtain ⟨h1, _, _, _, _⟩ := initialState_spec opts (some pages) su baseUrl
    rw [h1]
    simp only [seedFromCache]
    exact foldl_setAdd_mem pages [] R hmem
  have hf : ¬ R.url ∈ (initialState opts (some pages) su baseUrl).fetched := by
    obtain ⟨_, _, _, h4, _⟩ := initialState_spec opts (some pages) su baseUrl
    rw [h4]
    simp
  exact (crawlLoop_fresh env su opts fuel _ R.url hv hf).2

/-- C9 witness: a concrete fully-enriched cached page is never fetched on
the re-run. -/
theorem c9_witness :
    ¬ cachedPageW.url ∈
      (crawlRun envFailW optsW (some [cachedPageW]) suW ("https://w.example") 3).fetched :=
  c9_cached_url_not_refetched envFailW optsW suW ("https://w.example") 3
    [cachedPageW] cachedPageW (by decide) (by decide) (by decide) (by decide)

/-- C10: `extractMetadata` is total — the Lean embedding of its one
`try`/`catch` body is a function into `PageMetadata`, and on both the
success and the error branch the returned result's `url` equals the input
URL and its `depth` equals the input depth. -/
theorem c10_extractMetadata_total_url_depth (env : CrawlEnv) (url : String)
    (depth : Nat) (sd : Option SitemapData) (su : List SitemapUrl) :
    (extractMetadata env url depth sd su).url = url ∧
    (extractMetadata env url depth sd su).depth = depth :=
  ⟨extractMetadata_url env url depth sd su, extractMetadata_depth env url depth sd su⟩

end SeoCheck
